import Mathlib

/-!
Verification of the x-list-summarizer core against its specification.

The program under study fetches posts ("tweets") from curated X lists,
normalizes each raw payload into a post record, groups posts by the external
links they carry, ranks the groups by a weighted engagement score, and hands
the ranking to a pluggable LLM provider layer with retry and error
classification.  The definitions below are a shallow embedding of the
relevant source functions:

* `aggregate_by_links` embeds `XListFetcher.aggregate_by_links`
  (src/app/x_list_summarizer.py, lines 371-388).  Python dict and
  defaultdict preserve insertion order, so the grouping accumulator is an
  association list to which new keys are appended at the end; `sorted` with
  a key and `reverse=True` is a stable descending sort, embedded as a stable
  insertion sort `sortDesc`.  The float weights 1.5 and 2.0 are exactly
  representable, so scores are carried in the rationals.
* `fetch_list_tweets` embeds the pagination loop and the exception
  classification of `XListFetcher.fetch_list_tweets` (lines 193-369); the
  remote endpoint is modelled as a trace of page outcomes, each either a
  batch or a raised exception rendered as its message string.
* the provider layer (`get_effective_config`, `verify`, `summarize`,
  `openai_compatible`) embeds src/app/llm_providers.py; remote calls are
  modelled as outcome traces and raised exceptions as `Except.error` of the
  exception text.
-/

/-- Substring test on character lists: Python `needle in hay`. -/
def listContainsSub (needle : List Char) : List Char → Bool
  | [] => needle.isEmpty
  | c :: rest => needle.isPrefixOf (c :: rest) || listContainsSub needle rest

/-- Python `needle in hay` on strings. -/
def strContainsSub (hay needle : String) : Bool :=
  listContainsSub needle.data hay.data

/-- Python `str.lower()` (the error and URL strings under study are ASCII). -/
def lowerStr (s : String) : String :=
  ⟨s.data.map Char.toLower⟩

/-- A single quote character, used inside modelled message strings. -/
def quoteChar : String := String.singleton (Char.ofNat 39)

/-- A canonical post record as produced by the fetch loop
(src/app/x_list_summarizer.py lines 346-354).  Media items and the link
card are omitted: no claim under verification mentions them, and they do
not influence grouping, ranking or the side bucket. -/
structure Tweet where
  id : String
  text : String
  author : String
  links : List String
  likes : Nat
  retweets : Nat
  replies : Nat
  quotes : Nat
  bookmarks : Nat
deriving DecidableEq, Repr

/-- The engagement score one post contributes, from the sort key of
`aggregate_by_links`: `t.likes + t.retweets*1.5 + t.replies*2.0 +
t.quotes + t.bookmarks` (line 384-386). -/
def tweetScore (t : Tweet) : ℚ :=
  (t.likes : ℚ) + (t.retweets : ℚ) * (3 / 2) + (t.replies : ℚ) * 2
    + (t.quotes : ℚ) + (t.bookmarks : ℚ)

/-- The sort key of one link group: the sum of the contributing posts
engagement scores (line 384-386). -/
def groupScore (g : String × List Tweet) : ℚ :=
  (g.2.map tweetScore).sum

/-- Stable descending insertion: `x` is placed before the first element
whose key is not strictly greater.  Elements already in the list that
compare equal to `x` therefore stay in front of it. -/
def insertDesc {α : Type} (key : α → ℚ) (x : α) : List α → List α
  | [] => [x]
  | y :: ys => if key x < key y then y :: insertDesc key x ys else x :: y :: ys

/-- Stable descending sort by a rational key; embeds Python
`sorted(..., key=..., reverse=True)`, which is a stable sort. -/
def sortDesc {α : Type} (key : α → ℚ) : List α → List α
  | [] => []
  | x :: xs => insertDesc key x (sortDesc key xs)

/-- The skip test of the grouping loop: `'t.co/' in link.lower()`
(line 379). -/
def isShortTco (link : String) : Bool :=
  strContainsSub (lowerStr link) "t.co/"

/-- The links of a post that survive the unresolved-short-URL skip in the
grouping loop (lines 377-381). -/
def keptLinks (t : Tweet) : List String :=
  t.links.filter (fun l => !isShortTco l)

/-- `by_link[link].append(t)` on an insertion-ordered association list:
append to the existing group of `link`, or create a new group at the end
(defaultdict key-creation order). -/
def addTweet : List (String × List Tweet) → String → Tweet → List (String × List Tweet)
  | [], link, t => [(link, [t])]
  | (k, ms) :: rest, link, t =>
      if k = link then (k, ms ++ [t]) :: rest
      else (k, ms) :: addTweet rest link t

/-- The inner `for link in t['links']` loop of `aggregate_by_links`. -/
def addTweetLinks (gs : List (String × List Tweet)) (t : Tweet) : List (String × List Tweet) :=
  (keptLinks t).foldl (fun acc l => addTweet acc l t) gs

/-- One iteration of the outer loop of `aggregate_by_links`: posts with a
non-empty links list feed the link groups, the rest go to `no_links`. -/
def buildStep (acc : List (String × List Tweet) × List Tweet) (t : Tweet) :
    List (String × List Tweet) × List Tweet :=
  if t.links.isEmpty then (acc.1, acc.2 ++ [t]) else (addTweetLinks acc.1 t, acc.2)

/-- The grouping phase of `aggregate_by_links` (lines 373-382): link groups
in first-seen key order, plus the link-less side bucket. -/
def buildGroups (tweets : List Tweet) : List (String × List Tweet) × List Tweet :=
  tweets.foldl buildStep ([], [])

/-- The aggregation result: ranked link groups and the link-less bucket. -/
structure Agg where
  by_link : List (String × List Tweet)
  no_links : List Tweet
deriving DecidableEq, Repr

/-- `XListFetcher.aggregate_by_links` (lines 371-388): group posts by each
kept link, sort the groups by summed engagement score descending (stable),
and return the groups plus the link-less bucket. -/
def aggregate_by_links (tweets : List Tweet) : Agg :=
  let gn := buildGroups tweets
  ⟨sortDesc groupScore gn.1, gn.2⟩

/-! ### Properties of the stable descending sort -/

theorem insertDesc_perm {α : Type} (key : α → ℚ) (x : α) (l : List α) :
    List.Perm (insertDesc key x l) (x :: l) := by
  induction l with
  | nil => simp [insertDesc]
  | cons y ys ih =>
      simp only [insertDesc]
      split
      · exact (ih.cons y).trans (List.Perm.swap x y ys)
      · exact List.Perm.refl _

theorem sortDesc_perm {α : Type} (key : α → ℚ) (l : List α) :
    List.Perm (sortDesc key l) l := by
  induction l with
  | nil => simp [sortDesc]
  | cons x xs ih =>
      exact (insertDesc_perm key x (sortDesc key xs)).trans (ih.cons x)

theorem mem_insertDesc {α : Type} (key : α → ℚ) (x a : α) (l : List α) :
    a ∈ insertDesc key x l ↔ a = x ∨ a ∈ l := by
  rw [(insertDesc_perm key x l).mem_iff, List.mem_cons]

theorem insertDesc_pairwise {α : Type} (key : α → ℚ) (x : α) (l : List α)
    (h : l.Pairwise (fun a b => key b ≤ key a)) :
    (insertDesc key x l).Pairwise (fun a b => key b ≤ key a) := by
  induction l with
  | nil => simp [insertDesc]
  | cons y ys ih =>
      rw [List.pairwise_cons] at h
      simp only [insertDesc]
      split
      · rename_i hlt
        rw [List.pairwise_cons]
        refine ⟨fun a ha => ?_, ih h.2⟩
        rw [mem_insertDesc] at ha
        rcases ha with rfl | ha
        · exact le_of_lt hlt
        · exact h.1 a ha
      · rename_i hnlt
        rw [List.pairwise_cons]
        refine ⟨fun a ha => ?_, List.pairwise_cons.mpr h⟩
        rcases List.mem_cons.mp ha with rfl | ha
        · exact le_of_not_lt hnlt
        · exact le_trans (h.1 a ha) (le_of_not_lt hnlt)

theorem sortDesc_pairwise {α : Type} (key : α → ℚ) (l : List α) :
    (sortDesc key l).Pairwise (fun a b => key b ≤ key a) := by
  induction l with
  | nil => simp [sortDesc]
  | cons x xs ih => exact insertDesc_pairwise key x _ ih

theorem filter_insertDesc_of_eq {α : Type} (key : α → ℚ) (x : α) (l : List α)
    (q : ℚ) (hx : key x = q) :
    (insertDesc key x l).filter (fun a => decide (key a = q)) =
      x :: l.filter (fun a => decide (key a = q)) := by
  induction l with
  | nil => simp [insertDesc, List.filter, hx]
  | cons y ys ih =>
      simp only [insertDesc]
      split
      · rename_i hlt
        have hy : ¬ key y = q := by
          intro hq
          rw [hx] at hlt
          rw [hq] at hlt
          exact lt_irrefl q hlt
        simp [List.filter, hy, ih, hx]
      · simp [List.filter, hx]

theorem filter_insertDesc_of_ne {α : Type} (key : α → ℚ) (x : α) (l : List α)
    (q : ℚ) (hx : ¬ key x = q) :
    (insertDesc key x l).filter (fun a => decide (key a = q)) =
      l.filter (fun a => decide (key a = q)) := by
  induction l with
  | nil => simp [insertDesc, List.filter, hx]
  | cons y ys ih =>
      simp only [insertDesc]
      split
      · by_cases hy : key y = q <;> simp [List.filter, hy, ih]
      · simp [List.filter, hx]

theorem sortDesc_filter {α : Type} (key : α → ℚ) (l : List α) (q : ℚ) :
    (sortDesc key l).filter (fun a => decide (key a = q)) =
      l.filter (fun a => decide (key a = q)) := by
  induction l with
  | nil => simp [sortDesc]
  | cons x xs ih =>
      simp only [sortDesc]
      by_cases hx : key x = q
      · rw [filter_insertDesc_of_eq key x _ q hx, ih]
        simp [List.filter, hx]
      · rw [filter_insertDesc_of_ne key x _ q hx, ih]
        simp [List.filter, hx]

/-! ### C1 and C2 -/

/-- The weighted engagement score as the specification spells it:
likes + 1.5 * reshares + 2.0 * replies + quote-reshares + bookmarks. -/
def specScore (t : Tweet) : ℚ :=
  (t.likes : ℚ) + (3 / 2) * (t.retweets : ℚ) + 2 * (t.replies : ℚ)
    + (t.quotes : ℚ) + (t.bookmarks : ℚ)

/-- C1: for every list of posts passed to aggregate_by_links, the ranking
score of every returned link group equals the sum, over the posts in that
group, of likes + 1.5 * retweets + 2.0 * replies + quotes + bookmarks. -/
theorem C1_group_score_formula (ts : List Tweet) (g : String × List Tweet)
    (hg : g ∈ (aggregate_by_links ts).by_link) :
    groupScore g = (g.2.map specScore).sum := by
  have hfun : tweetScore = specScore := by
    funext t
    unfold tweetScore specScore
    ring
  unfold groupScore
  rw [hfun]

/-- Concrete post used in witnesses: one external link, metrics 10/2/1/0/0. -/
def tP1 : Tweet := ⟨"1", "post one", "alice", ["https://ex.com/a"], 10, 2, 1, 0, 0⟩

/-- Concrete link-less post used in witnesses. -/
def tP3 : Tweet := ⟨"3", "post three", "carol", [], 4, 0, 0, 0, 0⟩

/-- Witness for C1 at a concrete input. -/
theorem C1_group_score_formula_witness :
    ("https://ex.com/a", [tP1]) ∈ (aggregate_by_links [tP1, tP3]).by_link ∧
      groupScore ("https://ex.com/a", [tP1]) =
        (([tP1] : List Tweet).map specScore).sum :=
  ⟨by decide, C1_group_score_formula [tP1, tP3] ("https://ex.com/a", [tP1]) (by decide)⟩

/-- C2: the returned by_link list is ordered non-increasing by the weighted
engagement score, and groups with equal scores keep their first-seen
(insertion, i.e. `buildGroups`) relative order. -/
theorem C2_sorted_stable (ts : List Tweet) :
    ((aggregate_by_links ts).by_link).Pairwise (fun a b => groupScore b ≤ groupScore a) ∧
      ∀ q : ℚ,
        ((aggregate_by_links ts).by_link).filter (fun g => decide (groupScore g = q)) =
          (buildGroups ts).1.filter (fun g => decide (groupScore g = q)) := by
  constructor
  · exact sortDesc_pairwise groupScore (buildGroups ts).1
  · intro q
    exact sortDesc_filter groupScore (buildGroups ts).1 q

/-! ### Structure of the link groups (C3, C8) -/

/-- First-match lookup in the association list of groups. -/
def findGroup : List (String × List Tweet) → String → List Tweet
  | [], _ => []
  | (k, ms) :: rest, key => if k = key then ms else findGroup rest key

/-- The members a key accumulates over a list of posts: each post with a
non-empty links list contributes one copy per occurrence of the key among
its kept links. -/
def membersSpec (k : String) : List Tweet → List Tweet
  | [] => []
  | t :: rest =>
      (if t.links.isEmpty then [] else List.replicate ((keptLinks t).count k) t)
        ++ membersSpec k rest

theorem findGroup_addTweet (gs : List (String × List Tweet)) (link : String)
    (t : Tweet) (k : String) :
    findGroup (addTweet gs link t) k =
      if k = link then findGroup gs k ++ [t] else findGroup gs k := by
  induction gs with
  | nil =>
      by_cases h : k = link
      · subst h; simp [addTweet, findGroup]
      · have h2 : ¬ link = k := fun hh => h hh.symm
        simp [addTweet, findGroup, h, h2]
  | cons g rest ih =>
      obtain ⟨k0, ms0⟩ := g
      by_cases hk0 : k0 = link
      · subst hk0
        by_cases hk : k = k0
        · subst hk; simp [addTweet, findGroup]
        · have hk2 : ¬ k0 = k := fun hh => hk hh.symm
          simp [addTweet, findGroup, hk, hk2]
      · by_cases hk : k0 = k
        · subst hk
          simp [addTweet, findGroup, hk0]
        · simp [addTweet, findGroup, hk0, hk, ih]

theorem findGroup_addTweetLinks_aux (L : List String) (gs : List (String × List Tweet))
    (t : Tweet) (k : String) :
    findGroup (L.foldl (fun acc l => addTweet acc l t) gs) k =
      findGroup gs k ++ List.replicate (L.count k) t := by
  induction L generalizing gs with
  | nil => simp
  | cons l L' ih =>
      rw [List.foldl_cons, ih, findGroup_addTweet, List.count_cons]
      by_cases hk : k = l
      · subst hk
        simp [List.replicate_succ, Nat.add_comm, List.replicate_add]
      · have : ¬ (l == k) = true := by simpa using fun hh => hk hh.symm
        simp [hk, this]

theorem findGroup_addTweetLinks (gs : List (String × List Tweet)) (t : Tweet) (k : String) :
    findGroup (addTweetLinks gs t) k =
      findGroup gs k ++ List.replicate ((keptLinks t).count k) t :=
  findGroup_addTweetLinks_aux (keptLinks t) gs t k

theorem findGroup_foldl (ts : List Tweet) (gs : List (String × List Tweet))
    (nl : List Tweet) (k : String) :
    findGroup ((ts.foldl buildStep (gs, nl)).1) k = findGroup gs k ++ membersSpec k ts := by
  induction ts generalizing gs nl with
  | nil => simp [membersSpec]
  | cons t rest ih =>
      rw [List.foldl_cons]
      by_cases he : t.links.isEmpty
      · simp [buildStep, he, ih, membersSpec]
      · simp [buildStep, he, ih, membersSpec, findGroup_addTweetLinks,
          List.append_assoc]

theorem findGroup_buildGroups (ts : List Tweet) (k : String) :
    findGroup (buildGroups ts).1 k = membersSpec k ts := by
  have h := findGroup_foldl ts [] [] k
  simpa [buildGroups, findGroup] using h

theorem mem_membersSpec (ts : List Tweet) (k : String) (t' : Tweet) :
    t' ∈ membersSpec k ts ↔ t' ∈ ts ∧ t'.links ≠ [] ∧ k ∈ keptLinks t' := by
  induction ts with
  | nil => simp [membersSpec]
  | cons t rest ih =>
      by_cases he : t.links = []
      · have hb : t.links.isEmpty = true := List.isEmpty_iff.mpr he
        rw [membersSpec, if_pos hb, List.nil_append, ih, List.mem_cons]
        constructor
        · rintro ⟨h1, h2, h3⟩
          exact ⟨Or.inr h1, h2, h3⟩
        · rintro ⟨h1 | h1, h2, h3⟩
          · subst h1; exact absurd he h2
          · exact ⟨h1, h2, h3⟩
      · have hb : ¬ t.links.isEmpty = true := by
          rw [List.isEmpty_iff]; exact he
        rw [membersSpec, if_neg hb, List.mem_append, List.mem_replicate, ih,
          List.mem_cons]
        constructor
        · rintro (⟨hn, rfl⟩ | ⟨h1, h2, h3⟩)
          · refine ⟨Or.inl rfl, he, ?_⟩
            exact List.count_pos_iff.mp (Nat.pos_of_ne_zero hn)
          · exact ⟨Or.inr h1, h2, h3⟩
        · rintro ⟨h1 | h1, h2, h3⟩
          · subst h1
            exact Or.inl ⟨Nat.pos_iff_ne_zero.mp (List.count_pos_iff.mpr h3), rfl⟩
          · exact Or.inr ⟨h1, h2, h3⟩

/-- The keys of the association list of groups. -/
def keysOf (gs : List (String × List Tweet)) : List String :=
  gs.map Prod.fst

theorem keysOf_addTweet (gs : List (String × List Tweet)) (link : String) (t : Tweet) :
    keysOf (addTweet gs link t) =
      if link ∈ keysOf gs then keysOf gs else keysOf gs ++ [link] := by
  induction gs with
  | nil => simp [addTweet, keysOf]
  | cons g rest ih =>
      obtain ⟨k0, ms0⟩ := g
      by_cases hk0 : k0 = link
      · subst hk0; simp [addTweet, keysOf]
      · have hlk : ¬ link = k0 := fun hh => hk0 hh.symm
        simp only [keysOf] at ih ⊢
        by_cases hmem : link ∈ rest.map Prod.fst
        · simp [addTweet, hk0, hlk, hmem, ih]
        · simp [addTweet, hk0, hlk, hmem, ih]

theorem keysOf_addTweet_nodup (gs : List (String × List Tweet)) (link : String)
    (t : Tweet) (h : (keysOf gs).Nodup) : (keysOf (addTweet gs link t)).Nodup := by
  rw [keysOf_addTweet]
  by_cases hmem : link ∈ keysOf gs
  · simpa [hmem] using h
  · simp only [hmem, if_false]
    rw [List.nodup_append]
    exact ⟨h, List.nodup_singleton link, by simpa using hmem⟩

theorem keysOf_addTweetLinks_nodup (gs : List (String × List Tweet)) (t : Tweet)
    (h : (keysOf gs).Nodup) : (keysOf (addTweetLinks gs t)).Nodup := by
  unfold addTweetLinks
  induction keptLinks t generalizing gs with
  | nil => simpa
  | cons l L ih => exact ih _ (keysOf_addTweet_nodup gs l t h)

theorem keysOf_buildGroups_aux (ts : List Tweet) (gs : List (String × List Tweet))
    (nl : List Tweet) (h : (keysOf gs).Nodup) :
    (keysOf ((ts.foldl buildStep (gs, nl)).1)).Nodup := by
  induction ts generalizing gs nl with
  | nil => simpa
  | cons t rest ih =>
      rw [List.foldl_cons]
      by_cases he : t.links.isEmpty
      · simp only [buildStep, he, if_true]
        exact ih gs _ h
      · simp only [buildStep, he, if_false]
        exact ih _ nl (keysOf_addTweetLinks_nodup gs t h)

theorem keysOf_buildGroups_nodup (ts : List Tweet) :
    (keysOf (buildGroups ts).1).Nodup :=
  keysOf_buildGroups_aux ts [] [] (by simp [keysOf])

theorem findGroup_of_mem (gs : List (String × List Tweet)) (h : (keysOf gs).Nodup)
    (k : String) (ms : List Tweet) (hmem : (k, ms) ∈ gs) : findGroup gs k = ms := by
  induction gs with
  | nil => simp at hmem
  | cons g rest ih =>
      obtain ⟨k0, ms0⟩ := g
      have hcons : k0 ∉ keysOf rest ∧ (keysOf rest).Nodup :=
        List.nodup_cons.mp (show (k0 :: keysOf rest).Nodup from h)
      rcases List.mem_cons.mp hmem with heq | hmem'
      · cases heq
        simp [findGroup]
      · have hk0k : ¬ k0 = k := by
          rintro rfl
          exact hcons.1 (List.mem_map_of_mem Prod.fst hmem')
        simp only [findGroup, if_neg hk0k]
        exact ih hcons.2 hmem'

theorem mem_of_key_mem (gs : List (String × List Tweet)) (k : String)
    (hk : k ∈ keysOf gs) : (k, findGroup gs k) ∈ gs := by
  induction gs with
  | nil => simp [keysOf] at hk
  | cons g rest ih =>
      obtain ⟨k0, ms0⟩ := g
      by_cases h0 : k0 = k
      · subst h0
        simp [findGroup]
      · have hk2 : k ∈ keysOf rest := by
          rcases List.mem_cons.mp (show k ∈ k0 :: keysOf rest from hk) with h1 | h1
          · exact absurd h1 (fun hh => h0 hh.symm)
          · exact h1
        simp only [findGroup, if_neg h0]
        exact List.mem_cons_of_mem _ (ih hk2)

theorem key_mem_of_findGroup_ne (gs : List (String × List Tweet)) (k : String)
    (h : findGroup gs k ≠ []) : k ∈ keysOf gs := by
  induction gs with
  | nil => simp [findGroup] at h
  | cons g rest ih =>
      obtain ⟨k0, ms0⟩ := g
      by_cases h0 : k0 = k
      · subst h0
        exact List.mem_cons_self _ _
      · simp only [findGroup, if_neg h0] at h
        exact List.mem_cons_of_mem _ (ih h)

theorem no_links_foldl (ts : List Tweet) (gs : List (String × List Tweet))
    (nl : List Tweet) :
    (ts.foldl buildStep (gs, nl)).2 = nl ++ ts.filter (fun t => t.links.isEmpty) := by
  induction ts generalizing gs nl with
  | nil => simp
  | cons t rest ih =>
      by_cases he : t.links.isEmpty
      · simp [buildStep, he, ih, List.filter_cons]
      · simp [buildStep, he, ih, List.filter_cons]

/-- The side bucket is exactly the link-less posts of the input, in order. -/
theorem aggregate_no_links (ts : List Tweet) :
    (aggregate_by_links ts).no_links = ts.filter (fun t => t.links.isEmpty) := by
  have h := no_links_foldl ts [] []
  simpa [aggregate_by_links, buildGroups] using h

theorem length_filter_fst (gs : List (String × List Tweet)) (p : String → Bool) :
    (gs.filter (fun g => p g.1)).length = ((gs.map Prod.fst).filter p).length := by
  induction gs with
  | nil => rfl
  | cons g rest ih =>
      by_cases hp : p g.1
      · simp [List.filter_cons, hp, ih]
      · simp [List.filter_cons, hp, ih]

theorem nodup_filter_length_dedup (K S : List String) (hK : K.Nodup)
    (hsub : ∀ s ∈ S, s ∈ K) :
    (K.filter (fun k => decide (k ∈ S))).length = S.dedup.length := by
  have h1 : (K.filter (fun k => decide (k ∈ S))).Nodup := hK.filter _
  have h2 : S.dedup.Nodup := S.nodup_dedup
  have hfin : (K.filter (fun k => decide (k ∈ S))).toFinset = S.dedup.toFinset := by
    ext x
    simp only [List.mem_toFinset, List.mem_filter, List.mem_dedup, decide_eq_true_eq]
    exact ⟨fun h => h.2, fun h => ⟨hsub x h, h⟩⟩
  exact (List.perm_of_nodup_nodup_toFinset_eq h1 h2 hfin).length_eq

/-- C3: a post with a non-empty links list never lands in the no_links
bucket; a post whose links are all resolved (not unresolved t.co short
URLs) is a member of the group keyed by each of its links, and of exactly
as many groups as it has distinct links. -/
theorem C3_membership (ts : List Tweet) (t : Tweet) (hmem : t ∈ ts)
    (hne : t.links ≠ []) (hres : ∀ l ∈ t.links, isShortTco l = false) :
    t ∉ (aggregate_by_links ts).no_links ∧
      (∀ l ∈ t.links, ∃ g ∈ (aggregate_by_links ts).by_link, g.1 = l ∧ t ∈ g.2) ∧
      ((aggregate_by_links ts).by_link.filter (fun g => decide (t ∈ g.2))).length =
        t.links.dedup.length := by
  have hkept : keptLinks t = t.links := by
    unfold keptLinks
    refine List.filter_eq_self.mpr (fun l hl => ?_)
    simp [hres l hl]
  have hG : (aggregate_by_links ts).by_link = sortDesc groupScore (buildGroups ts).1 := rfl
  have hperm : List.Perm (sortDesc groupScore (buildGroups ts).1) (buildGroups ts).1 :=
    sortDesc_perm groupScore (buildGroups ts).1
  have hnodup := keysOf_buildGroups_nodup ts
  have hfind : ∀ l ∈ t.links, t ∈ findGroup (buildGroups ts).1 l := by
    intro l hl
    rw [findGroup_buildGroups, mem_membersSpec]
    exact ⟨hmem, hne, hkept ▸ hl⟩
  have hkey : ∀ l ∈ t.links, l ∈ keysOf (buildGroups ts).1 := by
    intro l hl
    refine key_mem_of_findGroup_ne _ l (fun h0 => ?_)
    have := hfind l hl
    rw [h0] at this
    simp at this
  refine ⟨?_, ?_, ?_⟩
  · rw [aggregate_no_links]
    intro hcontra
    have := (List.mem_filter.mp hcontra).2
    exact hne (List.isEmpty_iff.mp (by simpa using this))
  · intro l hl
    refine ⟨(l, findGroup (buildGroups ts).1 l), ?_, rfl, hfind l hl⟩
    rw [hG]
    exact hperm.mem_iff.mpr (mem_of_key_mem _ l (hkey l hl))
  · rw [hG, (hperm.filter _).length_eq]
    have hcongr : (buildGroups ts).1.filter (fun g => decide (t ∈ g.2)) =
        (buildGroups ts).1.filter (fun g => decide (g.1 ∈ t.links)) := by
      refine List.filter_congr (fun g hg => ?_)
      obtain ⟨k, ms⟩ := g
      have hms : findGroup (buildGroups ts).1 k = ms :=
        findGroup_of_mem _ hnodup k ms hg
      have hiff : t ∈ ms ↔ k ∈ t.links := by
        rw [← hms, findGroup_buildGroups, mem_membersSpec, hkept]
        exact ⟨fun h => h.2.2, fun h => ⟨hmem, hne, h⟩⟩
      exact decide_eq_decide.mpr hiff
    rw [hcongr]
    rw [length_filter_fst (buildGroups ts).1 (fun k => decide (k ∈ t.links))]
    exact nodup_filter_length_dedup _ t.links hnodup hkey

/-- Witness for C3 at a concrete input: one post with one resolved link. -/
theorem C3_membership_witness :
    tP1 ∉ (aggregate_by_links [tP1, tP3]).no_links ∧
      (∀ l ∈ tP1.links, ∃ g ∈ (aggregate_by_links [tP1, tP3]).by_link, g.1 = l ∧ tP1 ∈ g.2) ∧
      ((aggregate_by_links [tP1, tP3]).by_link.filter (fun g => decide (tP1 ∈ g.2))).length =
        tP1.links.dedup.length :=
  C3_membership [tP1, tP3] tP1 (by decide) (by decide) (by decide)

/-- C8 counterexample: no fixed bound caps the no_links bucket returned by
aggregate_by_links; for every candidate bound B, feeding B+1 link-less
posts yields a bucket of length B+1. -/
theorem C8_cex : ¬ ∃ B : ℕ, ∀ ts : List Tweet,
    ((aggregate_by_links ts).no_links).length ≤ B := by
  rintro ⟨B, hB⟩
  have h := hB (List.replicate (B + 1) tP3)
  rw [aggregate_no_links] at h
  have hf : (List.replicate (B + 1) tP3).filter (fun t => t.links.isEmpty) =
      List.replicate (B + 1) tP3 := by
    refine List.filter_eq_self.mpr (fun a ha => ?_)
    rw [List.eq_of_mem_replicate ha]
    decide
  rw [hf, List.length_replicate] at h
  omega

/-- C8 amended: aggregate_by_links applies no cap to the no_links bucket;
the bucket is exactly the link-less input posts in order, hence bounded
only by the input length (downstream rendering truncates separately). -/
theorem C8_amended (ts : List Tweet) :
    (aggregate_by_links ts).no_links = ts.filter (fun t => t.links.isEmpty) ∧
      ((aggregate_by_links ts).no_links).length ≤ ts.length := by
  refine ⟨aggregate_no_links ts, ?_⟩
  rw [aggregate_no_links]
  exact List.length_filter_le _ _

/-! ### C7: the link-exclusion test of the entity extractor -/

/-- The platform-domain strings checked by the extractor (line 277). -/
def platformDomains : List String := ["x.com", "twitter.com", "twimg.com", "t.co"]

/-- The extractor keeps a resolved link iff no platform-domain string occurs
anywhere in the lowercased URL text:
`if not any(d in expanded.lower() for d in [...])` (lines 276-278). -/
def keepLink (expanded : String) : Bool :=
  !(platformDomains.any (fun d => strContainsSub (lowerStr expanded) d))

/-- Modelled from the spec: the host of a URL, in the sense used by the
sentence about excluding links whose host belongs to the platform domains.
The scheme is stripped and the host is everything before the first slash.
This definition follows the spec wording, not the source (the source never
computes a host in this code path); it exists to compare the source
behavior against the spec claim. -/
def specHostOf (url : String) : String :=
  let cs := if List.isPrefixOf "https://".data url.data then url.data.drop 8
            else if List.isPrefixOf "http://".data url.data then url.data.drop 7
            else url.data
  ⟨cs.takeWhile (fun c => c ≠ Char.ofNat 47)⟩

/-- C7 counterexample: a link with an external host is excluded because a
platform-domain string occurs in its path, so exclusion is not equivalent
to the host belonging to the platform domains. -/
theorem C7_cex :
    keepLink "https://evil.example/why-x.com-failed" = false ∧
      specHostOf "https://evil.example/why-x.com-failed" = "evil.example" ∧
      "evil.example" ∉ platformDomains := by
  refine ⟨by decide, by decide, by decide⟩

/-- C7 amended: a resolved link is excluded from the external-links set iff
one of the platform-domain strings occurs as a substring anywhere in the
lowercased URL text; in particular an external-host link is also excluded
whenever such a string appears elsewhere in the URL. -/
theorem C7_amended (url : String) :
    keepLink url = false ↔
      ∃ d ∈ platformDomains, strContainsSub (lowerStr url) d = true := by
  unfold keepLink
  rw [Bool.not_eq_false']
  exact List.any_eq_true

/-! ### C4: the pagination loop of fetch_list_tweets -/

/-- One page returned by the list-tweets endpoint: the extracted posts of
the batch and the opaque next cursor (`None` or the empty string are falsy
and end the loop). -/
structure Batch where
  posts : List Tweet
  next_cursor : Option String
deriving DecidableEq, Repr

/-- Python truthiness of the cursor. -/
def cursorTruthy : Option String → Bool
  | none => false
  | some s => !s.isEmpty

/-- Rate-limit classification of a fetch exception (line 363):
`'429' in err or 'rate limit' in err.lower()`. -/
def isRateLimitFetchErr (err : String) : Bool :=
  strContainsSub err "429" || strContainsSub (lowerStr err) "rate limit"

/-- Authentication classification of a fetch exception (line 365):
`'401' in err or 'unauthorized' in err.lower()`. -/
def isAuthFetchErr (err : String) : Bool :=
  strContainsSub err "401" || strContainsSub (lowerStr err) "unauthorized"

/-- The message of the exception re-raised on a rate-limit failure (line 364). -/
def rateLimitFetchMsg (listId : String) : String :=
  "X Rate Limit reached fetching list " ++ listId ++
    ". Please wait 15 minutes and try again."

/-- The message of the exception re-raised on an auth failure (line 366). -/
def authFetchMsg (listId : String) : String :=
  "X session unauthorized (401) fetching list " ++ listId ++
    ". Please re-import your cookies via Settings → X Account."

/-- The paging loop of `fetch_list_tweets` (lines 250-369) under its
surrounding try/except.  `pages` is the trace of successive outcomes of
`client.get_list_tweets`: a batch, or a raised exception rendered as its
message.  While fewer than `maxTweets` posts are collected, the next page
outcome is consumed; an empty batch or a falsy cursor ends the loop.  A
raised exception classified as rate-limit or auth is re-raised with the
loud message; any other exception makes the function return the posts
collected so far.  An exhausted trace models a server that stops
responding with data, ending the loop with the collected posts. -/
def fetch_list_tweets (listId : String) (maxTweets : Nat) (acc : List Tweet) :
    List (Except String Batch) → Except String (List Tweet)
  | [] => .ok acc
  | page :: rest =>
      if acc.length < maxTweets then
        match page with
        | .error e =>
            if isRateLimitFetchErr e then .error (rateLimitFetchMsg listId)
            else if isAuthFetchErr e then .error (authFetchMsg listId)
            else .ok acc
        | .ok b =>
            if b.posts.isEmpty then .ok acc
            else if cursorTruthy b.next_cursor then
              fetch_list_tweets listId maxTweets (acc ++ b.posts) rest
            else .ok (acc ++ b.posts)
      else .ok acc

/-- The loop consumes all of `good` and is still running afterwards: every
batch is non-empty with a truthy cursor, and the count stays under the
target at each loop-condition check, including the one before the next
page request. -/
def runsThrough (maxTweets : Nat) (acc : List Tweet) : List Batch → Bool
  | [] => decide (acc.length < maxTweets)
  | b :: bs => decide (acc.length < maxTweets) && !b.posts.isEmpty &&
      cursorTruthy b.next_cursor && runsThrough maxTweets (acc ++ b.posts) bs

/-- The posts collected after consuming the batches of `good`. -/
def collected (acc : List Tweet) (good : List Batch) : List Tweet :=
  good.foldl (fun a b => a ++ b.posts) acc

/-- C4: when a page request raises mid-loop, a rate-limit-classified or
auth-classified error is re-raised with a message identifying the failure
(never returned as partial success), while any other exception makes the
fetch return exactly the posts collected so far. -/
theorem C4_fetch_errors (listId : String) (maxT : Nat) (acc : List Tweet)
    (good : List Batch) (e : String) (rest : List (Except String Batch))
    (hrun : runsThrough maxT acc good = true) :
    fetch_list_tweets listId maxT acc
        (good.map Except.ok ++ Except.error e :: rest) =
      if isRateLimitFetchErr e then .error (rateLimitFetchMsg listId)
      else if isAuthFetchErr e then .error (authFetchMsg listId)
      else .ok (collected acc good) := by
  induction good generalizing acc with
  | nil =>
      simp only [runsThrough, decide_eq_true_eq] at hrun
      simp only [List.map_nil, List.nil_append, fetch_list_tweets, if_pos hrun]
      rfl
  | cons b bs ih =>
      simp only [runsThrough, Bool.and_eq_true, decide_eq_true_eq] at hrun
      obtain ⟨⟨⟨hlt, hne⟩, hcur⟩, hrest⟩ := hrun
      simp only [List.map_cons, List.cons_append, fetch_list_tweets, if_pos hlt]
      rw [if_neg (by simpa using hne), if_pos hcur]
      exact ih (acc ++ b.posts) hrest

/-- Concrete batch used in the C4 witness. -/
def batchW : Batch := ⟨[tP1], some "cursor-1"⟩

/-- Witness for C4 at a concrete input: one successful page, then an
unclassified network exception; the fetch returns the collected posts. -/
theorem C4_fetch_errors_witness :
    runsThrough 10 [] [batchW] = true ∧
      fetch_list_tweets "123" 10 []
          [Except.ok batchW, Except.error "connection reset by peer"] =
        .ok [tP1] :=
  ⟨by decide,
   (C4_fetch_errors "123" 10 [] [batchW] "connection reset by peer" []
      (by decide)).trans (by rfl)⟩

/-! ### The LLM provider layer (src/app/llm_providers.py) -/

/-- The per-provider configuration dictionary `self.config`: `none` models
an absent key, `some ""` an explicitly empty value (both falsy in Python,
but `dict.get` with a default distinguishes them). -/
structure ProvConfig where
  endpoint : Option String
  api_key : Option String
  model : Option String
deriving DecidableEq, Repr

/-- `LLMProvider._get_effective_config` (lines 25-53): resolved endpoint,
key and model with provider-specific defaults. -/
def get_effective_config (provider : String) (cfg : ProvConfig) :
    String × String × String :=
  let endpoint := cfg.endpoint.getD ""
  let api_key := cfg.api_key.getD "not-needed"
  let model := cfg.model.getD "local-model"
  if provider = "openai" then ("https://api.openai.com/v1", api_key, model)
  else if provider = "groq" then
    (if endpoint = "" || strContainsSub endpoint "api.openai.com" then
        "https://api.groq.com/openai/v1" else endpoint, api_key, model)
  else if provider = "gemini" then
    (if endpoint = "" then "https://generativelanguage.googleapis.com/v1beta/openai/"
     else endpoint, api_key, model)
  else if provider = "deepseek" then
    (if endpoint = "" then "https://api.deepseek.com" else endpoint, api_key, model)
  else if provider = "openrouter" then
    (if endpoint = "" then "https://openrouter.ai/api/v1" else endpoint, api_key, model)
  else if provider = "grok" then
    (if endpoint = "" then "https://api.x.ai/v1" else endpoint, api_key, model)
  else if provider = "claude" then
    (endpoint, api_key, cfg.model.getD "claude-3-5-sonnet-20240620")
  else if endpoint = "" then
    (if provider = "ollama" then "http://localhost:11434"
     else if provider = "lmstudio" then "http://localhost:1234/v1"
     else "http://localhost:8000/v1", api_key, model)
  else (endpoint, api_key, model)

/-- The rate-limit test of `_openai_compatible` (line 258) on the
lowercased exception text. -/
def isRateLimitMsg (msgLower : String) : Bool :=
  strContainsSub msgLower "rate_limit" || strContainsSub msgLower "429"

/-- Digit run to number, as Python `int` on an ASCII digit string. -/
def digitsToNat (ds : List Char) : Nat :=
  ds.foldl (fun acc c => acc * 10 + (c.toNat - 48)) 0

/-- One anchored attempt of the regex `retry.after[^\d]*(\d+)` (line 264):
literal `retry`, one character other than a newline, literal `after`, any
run of non-digits, then a non-empty greedy digit run, returned as a
number. -/
def retryAfterAt (s : List Char) : Option Nat :=
  if List.isPrefixOf "retry".data s then
    match s.drop 5 with
    | [] => none
    | c :: s2 =>
        if c = Char.ofNat 10 then none
        else if List.isPrefixOf "after".data s2 then
          let ds := ((s2.drop 5).dropWhile (fun ch => !ch.isDigit)).takeWhile Char.isDigit
          if ds.isEmpty then none else some (digitsToNat ds)
        else none
  else none

/-- `re.search` of the pattern above: the leftmost position where the
anchored attempt succeeds. -/
def findRetryAfter : List Char → Option Nat
  | [] => none
  | c :: t =>
      match retryAfterAt (c :: t) with
      | some n => some n
      | none => findRetryAfter t

/-- The inter-attempt delay of `_openai_compatible` (lines 261-266): the
scheduled delay 15 or 30 seconds for attempts 0 and 1, overridden by a
retry-after hint plus two seconds, capped at 60. -/
def retryWait (attempt : Nat) (msgLower : String) : Nat :=
  match findRetryAfter msgLower.data with
  | some n => min (n + 2) 60
  | none => [15, 30].getD attempt 0

/-- The gemini-specific rate-limit failure message (line 275). -/
def geminiRateMsg : String :=
  "Error with gemini: Rate limited (free tier has low RPM). Wait 1–2 minutes, reduce Max Tweets in Settings, or switch to Groq."

/-- The failure string returned when `_openai_compatible` gives up
(lines 272-279). -/
def compatFailMsg (provider : String) (isRL : Bool) (msgLower e : String) : String :=
  if isRL then
    if provider = "gemini" then geminiRateMsg
    else "Error with " ++ provider ++ ": Rate limited after 3 attempts. Try reducing Max Tweets in Settings, or wait a minute and retry."
  else if strContainsSub msgLower "context_length" || strContainsSub msgLower "maximum context" then
    "Error with " ++ provider ++ ": Prompt too large for this model" ++ quoteChar ++ "s context window."
  else
    "Error with " ++ provider ++ ": " ++ e ++ "\n\nPlease check your settings and connection."

/-- The outcome of `_openai_compatible`: the returned string, the number of
remote calls made, and the delays slept between attempts, in order. -/
structure CompatResult where
  result : String
  calls : Nat
  delays : List Nat
deriving DecidableEq, Repr

/-- The retry loop of `_openai_compatible` (lines 242-279).  `attempts`
lists the successive remote-call outcomes; the fuel starts at the attempt
cap 3 and the loop retries only rate-limit-classified failures on attempts
0 and 1, so the fuel never runs out (the fuel-zero value is unreachable,
mirroring the fact that the Python for-loop always returns from inside). -/
def compatLoop (provider : String) (attempts : List (Except String String)) :
    Nat → Nat → List Nat → CompatResult
  | 0, attemptIdx, delays => ⟨"", attemptIdx, delays⟩
  | fuel + 1, attemptIdx, delays =>
      match attempts.getD attemptIdx (Except.error "no response") with
      | .ok content => ⟨content, attemptIdx + 1, delays⟩
      | .error e =>
          let msg := lowerStr e
          let isRL := isRateLimitMsg msg
          if isRL && decide (attemptIdx < 2) then
            compatLoop provider attempts fuel (attemptIdx + 1)
              (delays ++ [retryWait attemptIdx msg])
          else ⟨compatFailMsg provider isRL msg e, attemptIdx + 1, delays⟩

/-- `LLMProvider._openai_compatible` with cap 3 and schedule [15, 30]. -/
def openai_compatible (provider : String) (attempts : List (Except String String)) :
    CompatResult :=
  compatLoop provider attempts 3 0 []

/-- The first remote-call outcome, for the backends that call once. -/
def firstOutcome (env : List (Except String String)) : Except String String :=
  env.headD (Except.error "no response")

/-- `LLMProvider._ollama` (lines 185-202). -/
def ollamaSummarize (model : String) (env : List (Except String String)) : String :=
  match firstOutcome env with
  | .ok resp => resp
  | .error e =>
      "Error with Ollama: " ++ e ++
        "\n\nPlease check that Ollama is running and the model " ++
        quoteChar ++ model ++ quoteChar ++ " is installed."

/-- `LLMProvider._claude` (lines 204-219). -/
def claudeSummarize (apiKey : String) (env : List (Except String String)) : String :=
  if apiKey = "" then
    "Error: Claude API key not configured. Please add your API key to config.json"
  else
    match firstOutcome env with
    | .ok c => c
    | .error e => "Error with Claude API: " ++ e

/-- `LLMProvider._openai` (lines 221-236). -/
def openaiSummarize (apiKey : String) (env : List (Except String String)) : String :=
  if apiKey = "" then
    "Error: OpenAI API key not configured. Please add your API key to config.json"
  else
    match firstOutcome env with
    | .ok c => c
    | .error e => "Error with OpenAI API: " ++ e

/-- `LLMProvider._llamacpp` (lines 281-298). -/
def llamacppSummarize (endpoint : String) (env : List (Except String String)) : String :=
  match firstOutcome env with
  | .ok c => c
  | .error e =>
      "Error with llama.cpp: " ++ e ++
        "\n\nPlease check that llama.cpp server is running at " ++ endpoint

/-- `LLMProvider._koboldai` (lines 300-317). -/
def koboldSummarize (endpoint : String) (env : List (Except String String)) : String :=
  match firstOutcome env with
  | .ok c => c
  | .error e =>
      "Error with KoboldAI: " ++ e ++
        "\n\nPlease check that KoboldAI is running at " ++ endpoint

/-- `LLMProvider._textgen_webui` (lines 319-335). -/
def textgenSummarize (endpoint : String) (env : List (Except String String)) : String :=
  match firstOutcome env with
  | .ok c => c
  | .error e =>
      "Error with Text Generation WebUI: " ++ e ++
        "\n\nPlease check that the server is running at " ++ endpoint

/-- The providers dispatched to `_openai_compatible` by `summarize`
(line 132). -/
def compatProviders : List String :=
  ["lmstudio", "vllm", "generic_openai", "groq", "gemini", "deepseek",
   "openrouter", "grok"]

/-- Every provider identifier `summarize` dispatches without raising. -/
def knownProviders : List String :=
  ["ollama", "claude", "openai", "lmstudio", "vllm", "generic_openai",
   "groq", "gemini", "deepseek", "openrouter", "grok", "llamacpp",
   "koboldai", "textgenwebui"]

/-- `LLMProvider.summarize` (lines 112-141): dispatch on the provider
string; an unknown provider raises `ValueError`, modelled as
`Except.error`.  The prompt construction `_build_prompt` is a total
function of the aggregation input and does not influence the dispatch or
the returned value beyond the prompt text, so it is not modelled.  `env`
is the trace of remote-call outcomes for the chosen backend. -/
def summarize (provider : String) (cfg : ProvConfig)
    (env : List (Except String String)) : Except String String :=
  let ec := get_effective_config provider cfg
  if provider = "ollama" then .ok (ollamaSummarize ec.2.2 env)
  else if provider = "claude" then .ok (claudeSummarize ec.2.1 env)
  else if provider = "openai" then .ok (openaiSummarize ec.2.1 env)
  else if provider ∈ compatProviders then .ok (openai_compatible provider env).result
  else if provider = "llamacpp" then
    .ok (llamacppSummarize (cfg.endpoint.getD "http://localhost:8080") env)
  else if provider = "koboldai" then
    .ok (koboldSummarize (cfg.endpoint.getD "http://localhost:5001") env)
  else if provider = "textgenwebui" then
    .ok (textgenSummarize (cfg.endpoint.getD "http://localhost:5000") env)
  else .error ("Unknown provider: " ++ provider)

/-! ### C5 and C6 -/

/-- A string flagged as a failure: it starts with "Error". -/
def errFlagged (s : String) : Bool :=
  List.isPrefixOf "Error".data s.data

/-- The success payloads available in a remote-call outcome trace. -/
def okValues (env : List (Except String String)) : List String :=
  env.filterMap Except.toOption

theorem isPrefixOf_append_of (l1 l2 l3 : List Char)
    (h : l1.isPrefixOf l2 = true) : l1.isPrefixOf (l2 ++ l3) = true := by
  induction l1 generalizing l2 with
  | nil => simp [List.isPrefixOf]
  | cons a as ih =>
      cases l2 with
      | nil => simp [List.isPrefixOf] at h
      | cons b bs =>
          simp only [List.cons_append, List.isPrefixOf, Bool.and_eq_true] at h ⊢
          exact ⟨h.1, ih bs h.2⟩

theorem errFlagged_append (a b : String) (h : errFlagged a = true) :
    errFlagged (a ++ b) = true := by
  unfold errFlagged at h ⊢
  exact isPrefixOf_append_of _ _ b.data h

theorem okValues_getD (env : List (Except String String)) (i : Nat)
    (d v : String) (h : env.getD i (Except.error d) = Except.ok v) :
    v ∈ okValues env := by
  induction env generalizing i with
  | nil => simp [List.getD] at h
  | cons e rest ih =>
      cases i with
      | zero =>
          rw [List.getD_cons_zero] at h
          subst h
          simp [okValues, Except.toOption]
      | succ j =>
          rw [List.getD_cons_succ] at h
          have := ih j h
          cases e <;> simp [okValues, Except.toOption] at this ⊢ <;> simp [this]

theorem okValues_headD (env : List (Except String String)) (v : String)
    (h : firstOutcome env = Except.ok v) : v ∈ okValues env := by
  cases env with
  | nil => simp [firstOutcome] at h
  | cons e rest =>
      have : e = Except.ok v := by simpa [firstOutcome] using h
      subst this
      simp [okValues, Except.toOption]

theorem compatFailMsg_flagged (p : String) (isRL : Bool) (m e : String) :
    errFlagged (compatFailMsg p isRL m e) = true := by
  unfold compatFailMsg
  split
  · split
    · decide
    · exact errFlagged_append _ _ (errFlagged_append _ _ (by decide))
  · split
    · exact errFlagged_append _ _ (errFlagged_append _ _
        (errFlagged_append _ _ (errFlagged_append _ _ (by decide))))
    · exact errFlagged_append _ _ (errFlagged_append _ _
        (errFlagged_append _ _ (errFlagged_append _ _ (by decide))))

theorem compatLoop_flagged (p : String) (env : List (Except String String)) :
    ∀ (fuel attemptIdx : Nat) (delays : List Nat),
      attemptIdx + fuel = 3 → attemptIdx ≤ 2 →
      errFlagged (compatLoop p env fuel attemptIdx delays).result = true ∨
        (compatLoop p env fuel attemptIdx delays).result ∈ okValues env := by
  intro fuel
  induction fuel with
  | zero => intro idx delays hsum hle; omega
  | succ f ih =>
      intro idx delays hsum hle
      rw [compatLoop]
      cases hget : env.getD idx (Except.error "no response") with
      | ok v =>
          right
          exact okValues_getD env idx _ v hget
      | error e =>
          dsimp only
          by_cases hguard : (isRateLimitMsg (lowerStr e) && decide (idx < 2)) = true
          · rw [if_pos hguard]
            have hidx : idx < 2 := by
              have := (Bool.and_eq_true ..).mp hguard
              simpa using this.2
            exact ih (idx + 1) _ (by omega) (by omega)
          · rw [if_neg hguard]
            left
            exact compatFailMsg_flagged p _ _ e

theorem openai_compatible_flagged (p : String) (env : List (Except String String)) :
    errFlagged (openai_compatible p env).result = true ∨
      (openai_compatible p env).result ∈ okValues env :=
  compatLoop_flagged p env 3 0 [] rfl (by omega)

theorem ollamaSummarize_flagged (model : String) (env : List (Except String String)) :
    errFlagged (ollamaSummarize model env) = true ∨
      ollamaSummarize model env ∈ okValues env := by
  unfold ollamaSummarize
  cases h : firstOutcome env with
  | error e =>
      left
      repeat apply errFlagged_append
      decide
  | ok v =>
      right
      exact okValues_headD env v h

theorem claudeSummarize_flagged (apiKey : String) (env : List (Except String String)) :
    errFlagged (claudeSummarize apiKey env) = true ∨
      claudeSummarize apiKey env ∈ okValues env := by
  unfold claudeSummarize
  by_cases hk : apiKey = ""
  · rw [if_pos hk]
    left
    decide
  · rw [if_neg hk]
    cases h : firstOutcome env with
    | error e =>
        left
        repeat apply errFlagged_append
        decide
    | ok v =>
        right
        exact okValues_headD env v h

theorem openaiSummarize_flagged (apiKey : String) (env : List (Except String String)) :
    errFlagged (openaiSummarize apiKey env) = true ∨
      openaiSummarize apiKey env ∈ okValues env := by
  unfold openaiSummarize
  by_cases hk : apiKey = ""
  · rw [if_pos hk]
    left
    decide
  · rw [if_neg hk]
    cases h : firstOutcome env with
    | error e =>
        left
        repeat apply errFlagged_append
        decide
    | ok v =>
        right
        exact okValues_headD env v h

theorem llamacppSummarize_flagged (endpoint : String) (env : List (Except String String)) :
    errFlagged (llamacppSummarize endpoint env) = true ∨
      llamacppSummarize endpoint env ∈ okValues env := by
  unfold llamacppSummarize
  cases h : firstOutcome env with
  | error e =>
      left
      repeat apply errFlagged_append
      decide
  | ok v =>
      right
      exact okValues_headD env v h

theorem koboldSummarize_flagged (endpoint : String) (env : List (Except String String)) :
    errFlagged (koboldSummarize endpoint env) = true ∨
      koboldSummarize endpoint env ∈ okValues env := by
  unfold koboldSummarize
  cases h : firstOutcome env with
  | error e =>
      left
      repeat apply errFlagged_append
      decide
  | ok v =>
      right
      exact okValues_headD env v h

theorem textgenSummarize_flagged (endpoint : String) (env : List (Except String String)) :
    errFlagged (textgenSummarize endpoint env) = true ∨
      textgenSummarize endpoint env ∈ okValues env := by
  unfold textgenSummarize
  cases h : firstOutcome env with
  | error e =>
      left
      repeat apply errFlagged_append
      decide
  | ok v =>
      right
      exact okValues_headD env v h

/-- C5 counterexample: an unknown provider identifier makes `summarize`
raise a ValueError past its boundary instead of returning a string. -/
theorem C5_cex :
    summarize "foo" ⟨none, none, none⟩ [] =
      Except.error "Unknown provider: foo" := by rfl

/-- C5 amended: for every KNOWN provider identifier, summarize returns a
string without raising, and that string is either one of the remote
success payloads or a failure message flagged with the prefix "Error";
an unknown provider identifier raises ValueError instead. -/
theorem C5_summarize_total (p : String) (cfg : ProvConfig)
    (env : List (Except String String)) (hp : p ∈ knownProviders) :
    ∃ s, summarize p cfg env = Except.ok s ∧
      (errFlagged s = true ∨ s ∈ okValues env) := by
  simp only [knownProviders, List.mem_cons, List.not_mem_nil, or_false] at hp
  rcases hp with rfl | rfl | rfl | rfl | rfl | rfl | rfl | rfl | rfl | rfl | rfl | rfl | rfl | rfl
  · exact ⟨_, rfl, ollamaSummarize_flagged _ env⟩
  · exact ⟨_, rfl, claudeSummarize_flagged _ env⟩
  · exact ⟨_, rfl, openaiSummarize_flagged _ env⟩
  · exact ⟨_, rfl, openai_compatible_flagged _ env⟩
  · exact ⟨_, rfl, openai_compatible_flagged _ env⟩
  · exact ⟨_, rfl, openai_compatible_flagged _ env⟩
  · exact ⟨_, rfl, openai_compatible_flagged _ env⟩
  · exact ⟨_, rfl, openai_compatible_flagged _ env⟩
  · exact ⟨_, rfl, openai_compatible_flagged _ env⟩
  · exact ⟨_, rfl, openai_compatible_flagged _ env⟩
  · exact ⟨_, rfl, openai_compatible_flagged _ env⟩
  · exact ⟨_, rfl, llamacppSummarize_flagged _ env⟩
  · exact ⟨_, rfl, koboldSummarize_flagged _ env⟩
  · exact ⟨_, rfl, textgenSummarize_flagged _ env⟩

/-- Witness for the amended C5 at a concrete provider and environment. -/
theorem C5_summarize_total_witness :
    ("ollama" : String) ∈ knownProviders ∧
      ∃ s, summarize "ollama" ⟨none, none, none⟩ [] = Except.ok s ∧
        (errFlagged s = true ∨ s ∈ okValues []) :=
  ⟨by decide, C5_summarize_total "ollama" ⟨none, none, none⟩ [] (by decide)⟩

/-- C6: with rate-limit-classified failures on attempts 1 and 2 and a
success on attempt 3 (cap 3), the OpenAI-compatible path returns the
success value, makes exactly 3 calls, and sleeps the scheduled 15 then 30
seconds, unless a machine-parseable retry-after hint is present, in which
case the hint plus two seconds is used, capped at 60. -/
theorem C6_retry_schedule (p e1 e2 v : String) (rest : List (Except String String))
    (h1 : isRateLimitMsg (lowerStr e1) = true)
    (h2 : isRateLimitMsg (lowerStr e2) = true) :
    openai_compatible p
        (Except.error e1 :: Except.error e2 :: Except.ok v :: rest) =
      ⟨v, 3,
        [(findRetryAfter (lowerStr e1).data).elim 15 (fun n => min (n + 2) 60),
         (findRetryAfter (lowerStr e2).data).elim 30 (fun n => min (n + 2) 60)]⟩ := by
  have hw0 : retryWait 0 (lowerStr e1) =
      (findRetryAfter (lowerStr e1).data).elim 15 (fun n => min (n + 2) 60) := by
    unfold retryWait
    cases findRetryAfter (lowerStr e1).data <;> simp
  have hw1 : retryWait 1 (lowerStr e2) =
      (findRetryAfter (lowerStr e2).data).elim 30 (fun n => min (n + 2) 60) := by
    unfold retryWait
    cases findRetryAfter (lowerStr e2).data <;> simp
  simp [openai_compatible, compatLoop, h1, h2, hw0, hw1]

/-- Witness for C6 at concrete error messages: the first has no hint and
gets the scheduled 15 seconds; the second carries a retry-after hint of 7
seconds and gets 9. -/
theorem C6_retry_schedule_witness :
    isRateLimitMsg (lowerStr "HTTP 429 Too Many Requests") = true ∧
      isRateLimitMsg (lowerStr "rate_limit exceeded, retry-after: 7 s") = true ∧
      openai_compatible "groq"
          [Except.error "HTTP 429 Too Many Requests",
           Except.error "rate_limit exceeded, retry-after: 7 s",
           Except.ok "summary"] =
        ⟨"summary", 3, [15, 9]⟩ :=
  ⟨by decide, by decide,
   (C6_retry_schedule "groq" "HTTP 429 Too Many Requests"
      "rate_limit exceeded, retry-after: 7 s" "summary" []
      (by decide) (by decide)).trans (by rfl)⟩

/-! ### C9 and C10: verify -/

/-- The result dictionary of `verify`: `{'active': ..., 'message': ...}`. -/
structure VerifyOut where
  active : Bool
  message : String
deriving DecidableEq, Repr

/-- The remote-call outcomes available to one `verify` run: the two Ollama
requests, the gemini model-list call, and the tiny chat completion used by
the other OpenAI-compatible providers.  An `Except.error` is a raised
exception rendered as its message. -/
structure NetEnv where
  ollamaTags : Except String Unit
  ollamaGen : Except String Unit
  modelsList : Except String (List String)
  chatCheck : Except String Unit

/-- The providers routed through the OpenAI-compatible branch of `verify`
(line 74). -/
def verifyCompatProviders : List String :=
  ["lmstudio", "vllm", "generic_openai", "groq", "openai", "gemini",
   "deepseek", "openrouter", "grok"]

/-- The exception classification of the OpenAI-compatible verify branch
(lines 96-101). -/
def classifyVerifyErr (model e : String) : VerifyOut :=
  let err := lowerStr e
  if strContainsSub err "401" || strContainsSub err "api key" then
    ⟨false, "Invalid API Key"⟩
  else if strContainsSub err "rate_limit" || strContainsSub err "429" then
    ⟨false, "Rate limited — key is valid, try again shortly"⟩
  else if strContainsSub err "404" || strContainsSub err "not found" then
    ⟨false, "Model " ++ model ++ " not found"⟩
  else ⟨false, "Connection failed: " ++ String.take e 50 ++ "..."⟩

/-- Python `m.split('/')[-1]`, used to strip the `models/` namespace from
gemini model identifiers (line 83). -/
def lastSeg (m : String) : String :=
  (m.splitOn "/").getLastD m

/-- The body of `LLMProvider.verify` (lines 55-110) under its outer
try/except, as raw exception semantics: the first component is the
branch result, or `Except.error` for an exception that reaches the outer
handler (in this model only a failure while resolving the effective
configuration, `cfgR`); the second component counts remote calls made.
Every remote-call exception is absorbed by its branch handler, which is
what the theorems below establish. -/
def verifyCore (provider : String) (cfgR : Except String ProvConfig)
    (net : NetEnv) : Except String VerifyOut × Nat :=
  match cfgR with
  | .error e => (.error e, 0)
  | .ok cfg =>
      let ec := get_effective_config provider cfg
      let api_key := ec.2.1
      let model := ec.2.2
      if provider = "ollama" then
        match net.ollamaTags with
        | .error _ =>
            (.ok ⟨false, "Ollama Error: Check if " ++ model ++ " is pulled."⟩, 1)
        | .ok _ =>
            match net.ollamaGen with
            | .error _ =>
                (.ok ⟨false, "Ollama Error: Check if " ++ model ++ " is pulled."⟩, 2)
            | .ok _ => (.ok ⟨true, "Ready (" ++ model ++ ")"⟩, 2)
      else if provider ∈ verifyCompatProviders then
        if provider = "gemini" then
          match net.modelsList with
          | .ok available =>
              let bare := available.map lastSeg
              if bare.contains model || available.contains model then
                (.ok ⟨true, "Ready (" ++ model ++ ")"⟩, 1)
              else (.ok ⟨false, "Model " ++ model ++ " not found"⟩, 1)
          | .error e => (.ok (classifyVerifyErr model e), 1)
        else
          match net.chatCheck with
          | .ok _ => (.ok ⟨true, "Ready (" ++ model ++ ")"⟩, 1)
          | .error e => (.ok (classifyVerifyErr model e), 1)
      else if provider = "claude" then
        if api_key = "" then (.ok ⟨false, "Missing API Key"⟩, 0)
        else (.ok ⟨true, "Ready (" ++ model ++ ")"⟩, 0)
      else (.ok ⟨true, "Provider check skipped"⟩, 0)

/-- `LLMProvider.verify` with the outer catch-all applied: the returned
dictionary and the number of remote calls made. -/
def verify (provider : String) (cfgR : Except String ProvConfig)
    (net : NetEnv) : VerifyOut × Nat :=
  match verifyCore provider cfgR net with
  | (.ok v, n) => (v, n)
  | (.error e, n) => (⟨false, "Unexpected Error: " ++ String.take e 60⟩, n)

/-- The exception-level view of the whole `verify` method: `Except.error`
here would mean an exception escapes to the caller. -/
def verifyResult (provider : String) (cfgR : Except String ProvConfig)
    (net : NetEnv) : Except String VerifyOut :=
  match verifyCore provider cfgR net with
  | (.ok v, _) => .ok v
  | (.error e, _) => .ok ⟨false, "Unexpected Error: " ++ String.take e 60⟩

theorem verifyCore_ok (p : String) (cfg : ProvConfig) (net : NetEnv) :
    ∃ out n, verifyCore p (Except.ok cfg) net = (Except.ok out, n) := by
  unfold verifyCore
  dsimp only
  split
  · cases net.ollamaTags with
    | error e => exact ⟨_, _, rfl⟩
    | ok u =>
        cases net.ollamaGen with
        | error e => exact ⟨_, _, rfl⟩
        | ok u2 => exact ⟨_, _, rfl⟩
  · split
    · split
      · cases net.modelsList with
        | ok avail =>
            dsimp only
            split
            · exact ⟨_, _, rfl⟩
            · exact ⟨_, _, rfl⟩
        | error e => exact ⟨_, _, rfl⟩
      · cases net.chatCheck with
        | ok u => exact ⟨_, _, rfl⟩
        | error e => exact ⟨_, _, rfl⟩
    · split
      · split
        · exact ⟨_, _, rfl⟩
        · exact ⟨_, _, rfl⟩
      · exact ⟨_, _, rfl⟩

/-- C10: `verify` never raises.  Whatever the remote-client calls throw
(any `net`), the method returns a result with a Boolean active field and a
string message; an exception escaping the branch handlers — here a failure
while resolving the configuration — is caught by the outer handler and
yields active=false with an "Unexpected Error" message. -/
theorem C10_verify_never_raises (p : String) (cfgR : Except String ProvConfig)
    (net : NetEnv) :
    (∃ out : VerifyOut, verifyResult p cfgR net = Except.ok out) ∧
      (∀ e : String, verifyResult p (Except.error e) net =
        Except.ok ⟨false, "Unexpected Error: " ++ String.take e 60⟩) := by
  constructor
  · cases cfgR with
    | error e => exact ⟨_, rfl⟩
    | ok cfg =>
        obtain ⟨out, n, h⟩ := verifyCore_ok p cfg net
        refine ⟨out, ?_⟩
        unfold verifyResult
        rw [h]
  · intro e
    rfl

/-- A fully successful network environment, for concrete evaluations. -/
def net0 : NetEnv := ⟨Except.ok (), Except.ok (), Except.ok [], Except.ok ()⟩

/-- C9 counterexample: the claude provider with no configured credential
(absent api_key) verifies active=true with a Ready message — not
active=false with a missing-credential message — and the openai provider
with an empty credential still performs its network health call. -/
theorem C9_cex :
    verify "claude" (Except.ok ⟨none, none, none⟩) net0 =
        (⟨true, "Ready (claude-3-5-sonnet-20240620)"⟩, 0) ∧
      (verify "openai" (Except.ok ⟨none, some "", none⟩) net0).2 = 1 :=
  ⟨rfl, rfl⟩

/-- C9 amended: only the claude provider with an explicitly empty
credential returns active=false with the missing-credential message and
makes no network call; a claude configuration omitting the key resolves
the placeholder "not-needed" and verifies active=true with no network
call; an OpenAI-compatible provider performs its network health call
regardless of the missing credential. -/
theorem C9_missing_key (net : NetEnv) :
    verify "claude" (Except.ok ⟨none, some "", none⟩) net =
        (⟨false, "Missing API Key"⟩, 0) ∧
      verify "claude" (Except.ok ⟨none, none, none⟩) net =
        (⟨true, "Ready (claude-3-5-sonnet-20240620)"⟩, 0) ∧
      (verify "openai" (Except.ok ⟨none, some "", none⟩) net).2 = 1 := by
  obtain ⟨t1, t2, ml, cc⟩ := net
  refine ⟨rfl, rfl, ?_⟩
  cases cc <;> rfl
